import Mathlib

/-!
A shallow embedding of the carbon-aware spatial router (`spatial-router.py`)
and of the sweep tier classifier (`generate_sweep.py`), together with
theorems checking the specified behaviour of region selection, the
carbon-intensity gateway, both dispatch modes, job naming, tier
classification, and the campaign scheduling loop.

External effects (the HTTP fetch, the SSH subprocess, wall-clock
timestamps) are modelled as explicit environment parameters.  Machine
floats are embedded as rationals: every float literal in the scripts is
denoted by the exact rational it is written as, and on all values the
campaign produces the float comparisons and the (exact) rational
comparisons agree.  Rational constants and scalings are built with
`mkRat` so that every definition evaluates by kernel reduction.
-/

namespace SpatialRouter

/-- Exact product of a rational with an integer, written through the
normalising constructor (equal to `q * n`). -/
def qMulInt (q : ℚ) (n : Int) : ℚ := mkRat (q.num * n) q.den

/-- Exact quotient of a rational by a natural number, written through the
normalising constructor (equal to `q / n` for `n ≠ 0`). -/
def qDivNat (q : ℚ) (n : Nat) : ℚ := mkRat q.num (q.den * n)

/-- One entry of the REGIONS table: name, telemetry zone code, network
address.  Statically configured, fixed for a campaign. -/
structure RegionCfg where
  name : String
  zone : String
  ip : String
deriving DecidableEq, Repr

/-- The REGIONS dict from spatial-router.py, in declaration order (the
ohio entry still carries the placeholder address). -/
def REGIONS : List RegionCfg :=
  [⟨"quebec", "CA-QC", "100.65.196.126"⟩,
   ⟨"ohio", "US-MIDA-PJM", "100.x.x.x"⟩,
   ⟨"nordic", "NO", "100.80.123.80"⟩]

/-- A job's hyperparameters (the opaque JobConfig mapping). -/
structure JobConfig where
  r : Int
  alpha : Int
  lr : ℚ
  dropout : ℚ
deriving DecidableEq, Repr

/-- EXPERIMENT_CONFIGS from spatial-router.py: the 21 configured jobs in
backlog order.  The lr literals 1e-4, 5e-5, 1e-5 and the dropout literals
0.1, 0.05, 0.15 are written as the exact rationals they denote. -/
def EXPERIMENT_CONFIGS : List JobConfig :=
  [⟨16, 32, mkRat 1 10000, mkRat 1 10⟩,
   ⟨16, 64, mkRat 1 10000, mkRat 1 10⟩,
   ⟨16, 128, mkRat 1 10000, mkRat 1 10⟩,
   ⟨16, 32, mkRat 5 100000, mkRat 1 10⟩,
   ⟨16, 64, mkRat 5 100000, mkRat 1 10⟩,
   ⟨16, 32, mkRat 1 10000, mkRat 5 100⟩,
   ⟨16, 32, mkRat 1 10000, mkRat 15 100⟩,
   ⟨16, 32, mkRat 1 100000, mkRat 1 10⟩,
   ⟨32, 32, mkRat 1 10000, mkRat 1 10⟩,
   ⟨32, 32, mkRat 1 10000, mkRat 15 100⟩,
   ⟨32, 32, mkRat 5 100000, mkRat 15 100⟩,
   ⟨32, 64, mkRat 1 10000, mkRat 5 100⟩,
   ⟨32, 64, mkRat 1 10000, mkRat 1 10⟩,
   ⟨32, 64, mkRat 1 10000, mkRat 15 100⟩,
   ⟨32, 64, mkRat 1 100000, mkRat 1 10⟩,
   ⟨32, 128, mkRat 1 10000, mkRat 1 10⟩,
   ⟨32, 64, mkRat 5 100000, mkRat 1 10⟩,
   ⟨32, 128, mkRat 5 100000, mkRat 1 10⟩,
   ⟨32, 128, mkRat 1 100000, mkRat 1 10⟩,
   ⟨32, 128, mkRat 1 10000, mkRat 5 100⟩,
   ⟨32, 128, mkRat 1 10000, mkRat 15 100⟩]

/-- SUBMISSION_INTERVAL_HOURS from spatial-router.py. -/
def SUBMISSION_INTERVAL_HOURS : ℚ := 2

/-- Does the character list start with the pattern? -/
def charsStartWith : List Char → List Char → Bool
  | _, [] => true
  | [], _ :: _ => false
  | c :: cs, p :: ps => c == p && charsStartWith cs ps

/-- Does the character list contain the pattern as a contiguous run?
Models Python's substring test `pat in s`. -/
def charsContain : List Char → List Char → Bool
  | [], p => charsStartWith [] p
  | c :: rest, p => charsStartWith (c :: rest) p || charsContain rest p

/-- Python `pat in s` on strings. -/
def containsSubstr (s pat : String) : Bool := charsContain s.data pat.data

/-- Python str.lower, per character (ASCII suffices for every string the
router compares). -/
def pyLower (s : String) : String := ⟨s.data.map Char.toLower⟩

/-- Python `s[-n:]`: the last n characters of s (all of s when shorter). -/
def lastChars (n : Nat) (s : String) : String := ⟨s.data.drop (s.data.length - n)⟩

/-- Python int() applied to a rational: truncation toward zero, which on
`num/den` with positive denominator is T-division of the components. -/
def pyInt (q : ℚ) : Int := Int.tdiv q.num q.den

/-- A JSON value, as far as the router ever inspects one. -/
inductive JsonVal where
  | num (q : ℚ)
  | str (s : String)
  | null
deriving DecidableEq, Repr

/-- The Python exceptions distinguished by get_carbon_intensity. -/
inductive PyExc where
  | requestException (msg : String)
  | keyError (key : String)
deriving DecidableEq, Repr

/-- Environment for one HTTP fetch: either some step of requests.get /
raise_for_status / response.json() raises a
requests.exceptions.RequestException (network failure, auth failure,
undecodable body), or a parsed JSON object is produced. -/
inductive HttpEnv where
  | raisesRequestException (msg : String)
  | ok (fields : List (String × JsonVal))

/-- The body of get_carbon_intensity's try block: fetch the zone, raise
for HTTP status, parse, then index `["carbonIntensity"]` — indexing a
parsed object that lacks the key raises KeyError. -/
def fetchBody (env : HttpEnv) : Except PyExc JsonVal :=
  match env with
  | .raisesRequestException m => .error (.requestException m)
  | .ok fields =>
    match fields.lookup "carbonIntensity" with
    | some v => .ok v
    | none => .error (.keyError "carbonIntensity")

/-- get_carbon_intensity: the try block guarded by an except clause that
catches exactly requests.exceptions.RequestException and returns None;
any other exception propagates to the caller. -/
def get_carbon_intensity (env : HttpEnv) : Except PyExc (Option JsonVal) :=
  match fetchBody env with
  | .ok v => .ok (some v)
  | .error (.requestException _) => .ok none
  | .error e => .error e

/-- An intensity snapshot: region name mapped to reading-or-failure, in
region declaration order (models the dict built by get_all_intensities;
dict keys are unique because region names are). -/
abbrev Snapshot := List (String × Option ℚ)

/-- get_all_intensities: one reading-or-failure per configured region, in
declaration order.  The telemetry environment abstracts each zone's
get_carbon_intensity outcome for this tick (a value or None). -/
def get_all_intensities (regions : List RegionCfg) (telem : String → Option ℚ) : Snapshot :=
  regions.map (fun r => (r.name, telem r.zone))

/-- The dict comprehension in pick_cleanest_region filtering out failed
API calls, order preserved. -/
def successes (s : Snapshot) : List (String × ℚ) :=
  s.filterMap (fun kv => kv.2.map (fun v => (kv.1, v)))

/-- One step of Python `min(valid, key=valid.get)`: keep the incumbent
unless the new entry is strictly smaller, so the first minimum wins ties. -/
def pyMinStep (acc : Option (String × ℚ)) (kv : String × ℚ) : Option (String × ℚ) :=
  match acc with
  | none => some kv
  | some best => if kv.2 < best.2 then some kv else some best

/-- Python `min(valid, key=valid.get)` over the insertion-ordered entries
(none when the dict is empty, where Python would raise ValueError — that
case is unreachable behind the emptiness check in pick_cleanest_region). -/
def pyMin (l : List (String × ℚ)) : Option (String × ℚ) := l.foldl pyMinStep none

/-- pick_cleanest_region: fetch all intensities, filter to successes, fail
with the RuntimeError when none succeeded, otherwise return the argmin
region together with the full snapshot (failures included). -/
def pick_cleanest_region (regions : List RegionCfg) (telem : String → Option ℚ) :
    Except String (String × Snapshot) :=
  let intensities := get_all_intensities regions telem
  match pyMin (successes intensities) with
  | none => .error "Could not get carbon intensity for any region!"
  | some kv => .ok (kv.1, intensities)

/-- Normalise a positive rational to a mantissa in [1,10) and a power of
ten (fuel-bounded recursion; fuel 80 covers every magnitude in scope). -/
def normPos : Nat → ℚ → ℚ × Int
  | 0, q => (q, 0)
  | fuel + 1, q =>
    if q < 1 then
      let p := normPos fuel (qMulInt q 10)
      (p.1, p.2 - 1)
    else if 10 ≤ q then
      let p := normPos fuel (qDivNat q 10)
      (p.1, p.2 + 1)
    else (q, 0)

/-- The single rounded digit of a mantissa in [1,10): ⌊q + 1/2⌋ computed
on the components.  Every learning rate in the campaign has an exact
one-digit mantissa, so no float rounding ambiguity arises. -/
def roundMantissa (q : ℚ) : Int := Int.ediv (2 * q.num + q.den) (2 * q.den)

/-- The exponent part of Python %e formatting: sign and at least two digits. -/
def fmtExpPart (e : Int) : String :=
  let a := e.natAbs
  (if e < 0 then "e-" else "e+") ++ (if a < 10 then "0" ++ toString a else toString a)

/-- Python `f"{x:.0e}"` on a positive rational: one rounded mantissa digit
and a signed two-digit exponent. -/
def formatE0 (q : ℚ) : String :=
  if q = 0 then "0e+00"
  else
    let p := normPos 80 q
    let d := roundMantissa p.1
    if d = 10 then "1" ++ fmtExpPart (p.2 + 1) else toString d ++ fmtExpPart p.2

/-- generate_job_name from spatial-router.py:
`lora-r{r}-a{alpha}-lr{lr:.0e}-d{int(dropout*100)}`. -/
def generate_job_name (config : JobConfig) : String :=
  "lora-r" ++ toString config.r ++ "-a" ++ toString config.alpha ++
    "-lr" ++ formatE0 config.lr ++ "-d" ++ toString (pyInt (qMulInt config.dropout 100))

/-- ExperimentTier.BASELINE from generate_sweep.py. -/
def tierBASELINE : Nat := 1

/-- ExperimentTier.PROMISING from generate_sweep.py. -/
def tierPROMISING : Nat := 2

/-- ExperimentTier.LONGSHOT from generate_sweep.py. -/
def tierLONGSHOT : Nat := 3

/-- assign_tier from generate_sweep.py (the thresholds 0.15 and 1e-5 as
the exact rationals those literals denote). -/
def assign_tier (config : JobConfig) : Nat × String :=
  if config.r = 16 then
    (tierBASELINE, "baseline-variation: r=16 proven effective, needs fast feedback")
  else if config.r = 32 then
    if config.alpha = 128 ∨ mkRat 15 100 ≤ config.dropout ∨ config.lr ≤ mkRat 1 100000 then
      (tierLONGSHOT, "longshot: r=32 with aggressive/unconventional settings")
    else
      (tierPROMISING, "promising: r=32 with standard hyperparameters")
  else
    (tierPROMISING, "promising: r=" ++ toString config.r ++ " unusual configuration")

/-- The classification policy exactly as claim C8 words it: rank at the
small level (16) gives Baseline; rank at the large level (32) with scale
at its highest level (alpha 128), or regularization at or above the high
threshold (dropout at least 0.15), or learning rate at or below the low
threshold (1e-5), gives Longshot; rank at the large level otherwise gives
Promising; any other rank gives Promising with a rationale noting the
unusual value.  Declared separately from assign_tier so that C8 is a
refinement statement between the two. -/
def tierOfClaim (c : JobConfig) : Nat × String :=
  if c.r = 16 then
    (tierBASELINE, "baseline-variation: r=16 proven effective, needs fast feedback")
  else if c.r = 32 then
    if c.alpha = 128 ∨ mkRat 15 100 ≤ c.dropout ∨ c.lr ≤ mkRat 1 100000 then
      (tierLONGSHOT, "longshot: r=32 with aggressive/unconventional settings")
    else
      (tierPROMISING, "promising: r=32 with standard hyperparameters")
  else
    (tierPROMISING, "promising: r=" ++ toString c.r ++ " unusual configuration")

/-- The behaviour of one SSH invocation's environment: either the child
runs for `elapsed` seconds and ends with an exit code and captured stderr,
or the invocation raises some exception other than TimeoutExpired. -/
inductive ProcBehavior where
  | runs (elapsed : ℚ) (returncode : Int) (stderr : String)
  | fails (msg : String)
deriving DecidableEq, Repr

/-- The outcome of subprocess.run as the router observes it. -/
inductive SubprocResult where
  | completed (returncode : Int) (stderr : String) (elapsed : ℚ)
  | timeoutExpired
  | raised (msg : String)
deriving DecidableEq, Repr

/-- subprocess.run with capture_output, text and a timeout: raises
TimeoutExpired once the child has run for the full ceiling (a child
needing exactly the ceiling is killed as expired, matching the
kill-at-deadline semantics), returns the completed process when the child
finishes strictly before the deadline, and any other environment failure
surfaces as an exception. -/
def subprocess_run (proc : ProcBehavior) (timeoutSec : ℚ) : SubprocResult :=
  match proc with
  | .runs elapsed rcode stderr =>
    if timeoutSec ≤ elapsed then .timeoutExpired else .completed rcode stderr elapsed
  | .fails m => .raised m

/-- str() of a subprocess.TimeoutExpired, abstracted to its ceiling. -/
def timeoutMsg (sec : ℚ) : String :=
  "Command timed out after " ++ toString sec ++ " seconds"

/-- One structured run-log record (the union of the dict keys the scripts
write; keys a branch never writes are `none`). -/
structure LogEntry where
  timestamp : String
  job_index : Nat
  job_id : Option String
  job_name : Option String
  config : JobConfig
  selected_region : Option String
  intensities : Option Snapshot
  region_zone : Option String
  status : String
  error : Option String
  elapsed_seconds : Option ℚ
  elapsed_hours : Option ℚ
deriving DecidableEq, Repr

/-- The log_entry dict both dispatchers build before running SSH (the
submission timestamp string is taken from the environment). -/
def dispatchBase (reg : RegionCfg) (config : JobConfig) (intens : Snapshot)
    (jobIndex : Nat) (ts : String) (status0 : String) : LogEntry :=
  let jobName := generate_job_name config
  { timestamp := ts
    job_index := jobIndex
    job_id := some (jobName ++ "-" ++ ts)
    job_name := some jobName
    config := config
    selected_region := some reg.name
    intensities := some intens
    region_zone := some reg.zone
    status := status0
    error := none
    elapsed_seconds := none
    elapsed_hours := none }

/-- submit_job_ssh: blocking dispatch with a 4-hour (14400-second)
ceiling.  Zero exit gives completed (with elapsed recorded), nonzero exit
gives failed with the last 1000 characters of stderr (or "Unknown error"
when stderr is empty), TimeoutExpired gives timeout, any other exception
gives error; a record is always returned, never an exception raised. -/
def submit_job_ssh (reg : RegionCfg) (config : JobConfig) (intens : Snapshot)
    (jobIndex : Nat) (ts : String) (proc : ProcBehavior) : LogEntry :=
  let base := dispatchBase reg config intens jobIndex ts "submitted"
  match subprocess_run proc 14400 with
  | .completed rcode stderr elapsed =>
    let withElapsed :=
      { base with
          elapsed_seconds := some elapsed
          elapsed_hours := some (qDivNat elapsed 3600) }
    if rcode = 0 then { withElapsed with status := "completed" }
    else
      { withElapsed with
          status := "failed"
          error := some (if stderr = "" then "Unknown error" else lastChars 1000 stderr) }
  | .timeoutExpired => { base with status := "timeout" }
  | .raised m => { base with status := "error", error := some m }

/-- submit_job_async: non-blocking dispatch; subprocess.run covers only
the 60-second SSH connection-and-launch handshake.  Zero exit keeps
submitted_async, nonzero exit gives submit_failed with the captured
stderr, and any exception (TimeoutExpired included, via the catch-all
except) gives error with the exception text; a record is always returned,
never an exception raised. -/
def submit_job_async (reg : RegionCfg) (config : JobConfig) (intens : Snapshot)
    (jobIndex : Nat) (ts : String) (proc : ProcBehavior) : LogEntry :=
  let base := dispatchBase reg config intens jobIndex ts "submitted_async"
  match subprocess_run proc 60 with
  | .completed rcode stderr _ =>
    if rcode = 0 then base
    else { base with status := "submit_failed", error := some stderr }
  | .timeoutExpired => { base with status := "error", error := some (timeoutMsg 60) }
  | .raised m => { base with status := "error", error := some m }

/-- An observable step of the campaign: a record appended to the run log,
or a sleep of a cadence interval (in hours). -/
inductive Event where
  | logged (entry : LogEntry)
  | waited (hours : ℚ)
deriving DecidableEq, Repr

/-- The external world of one scheduling tick: the telemetry outcome per
zone, the behaviour of the dispatched subprocess, and the tick's
timestamp string. -/
structure TickEnv where
  telem : String → Option ℚ
  proc : ProcBehavior
  ts : String

/-- The log_entry written in run_experiment's RuntimeError handler:
timestamp, job index, config and the status string only. -/
def skipEntry (ts : String) (jobIndex : Nat) (config : JobConfig) : LogEntry :=
  { timestamp := ts
    job_index := jobIndex
    job_id := none
    job_name := none
    config := config
    selected_region := none
    intensities := none
    region_zone := none
    status := "skipped_api_error"
    error := none
    elapsed_seconds := none
    elapsed_hours := none }

/-- `REGIONS[region]` for a name produced by selection (the name always
comes from the region list, so the default is unreachable). -/
def lookupRegion (regions : List RegionCfg) (name : String) : RegionCfg :=
  (regions.find? (fun r => r.name == name)).getD ⟨name, "", ""⟩

/-- One iteration of run_experiment's loop body: select a region; on
RuntimeError log the skip record, otherwise dispatch (in the configured
mode) and log its record; in either case wait one cadence interval unless
this was the last job. -/
def tickEvents (regions : List RegionCfg) (asyncMode : Bool) (numJobs : Nat)
    (i : Nat) (config : JobConfig) (env : TickEnv) : List Event :=
  let waitTail : List Event :=
    if i < numJobs - 1 then [.waited SUBMISSION_INTERVAL_HOURS] else []
  match pick_cleanest_region regions env.telem with
  | .error _ => .logged (skipEntry env.ts i config) :: waitTail
  | .ok (region, intensities) =>
    let reg := lookupRegion regions region
    let entry :=
      if asyncMode then submit_job_async reg config intensities i env.ts env.proc
      else submit_job_ssh reg config intensities i env.ts env.proc
    .logged entry :: waitTail

/-- The enumerate loop of run_experiment, one tickEvents block per job. -/
def runLoop (regions : List RegionCfg) (asyncMode : Bool) (numJobs : Nat) :
    Nat → List JobConfig → (Nat → TickEnv) → List Event
  | _, [], _ => []
  | i, c :: rest, envs =>
    tickEvents regions asyncMode numJobs i c (envs i) ++
      runLoop regions asyncMode numJobs (i + 1) rest envs

/-- The observable outcome of one run_experiment call: whether the
placeholder-IP warning prompt was consulted, whether the call returned at
that prompt before the first tick, and the trace of log appends and waits. -/
structure RunResult where
  prompted : Bool
  aborted : Bool
  events : List Event
deriving Repr

/-- run_experiment: check for placeholder addresses — when any region has
one, consult the interactive prompt and return early unless the answer
lower-cases to "y" — then run the enumerate loop over the job backlog. -/
def run_experiment (regions : List RegionCfg) (answer : String) (asyncMode : Bool)
    (configs : List JobConfig) (envs : Nat → TickEnv) : RunResult :=
  if (regions.filter (fun r => containsSubstr r.ip "100.x.x.x")).isEmpty then
    ⟨false, false, runLoop regions asyncMode configs.length 0 configs envs⟩
  else if pyLower answer = "y" then
    ⟨true, false, runLoop regions asyncMode configs.length 0 configs envs⟩
  else
    ⟨true, true, []⟩

/-- A single-region table with a real (non-placeholder) address, for
concrete evaluations. -/
def quebecOnly : List RegionCfg := [⟨"quebec", "CA-QC", "100.65.196.126"⟩]

/-- The first configured job, for concrete evaluations. -/
def cfg0 : JobConfig := ⟨16, 32, mkRat 1 10000, mkRat 1 10⟩

/-- A second job, for concrete evaluations needing two ticks. -/
def cfg1 : JobConfig := ⟨16, 64, mkRat 1 10000, mkRat 1 10⟩

/-- A tick environment in which every zone's telemetry fails. -/
def noTelem : TickEnv := ⟨fun _ => none, .runs 1 0 "", "t0"⟩

/-- Scenario A telemetry: quebec 40, ohio 350, nordic 25. -/
def scenarioTelem : String → Option ℚ := fun z =>
  if z = "CA-QC" then some 40
  else if z = "US-MIDA-PJM" then some 350
  else if z = "NO" then some 25
  else none

example : generate_job_name cfg0 = "lora-r16-a32-lr1e-04-d10" := by decide

example :
    pick_cleanest_region REGIONS scenarioTelem =
      .ok ("nordic", [("quebec", some 40), ("ohio", some 350), ("nordic", some 25)]) := rfl

/-- C8: job classification is a pure deterministic function of the
JobConfig and implements exactly the claimed policy: rank 16 gives
Baseline; rank 32 with alpha 128 or dropout at least 0.15 or learning
rate at most 1e-5 gives Longshot; rank 32 otherwise gives Promising; any
other rank gives Promising with a rationale noting the unusual value
(tierOfClaim states that policy in the claim's wording). -/
theorem assign_tier_policy :
    (∀ c1 c2 : JobConfig, c1 = c2 → assign_tier c1 = assign_tier c2) ∧
    (∀ c : JobConfig, assign_tier c = tierOfClaim c) :=
  ⟨fun _ _ h => by rw [h], fun _ => rfl⟩

/-- Witness for C8: the policy evaluated at the r=32, alpha=128 config. -/
theorem assign_tier_policy_witness :
    assign_tier ⟨32, 128, mkRat 1 10000, mkRat 1 10⟩ =
        assign_tier ⟨32, 128, mkRat 1 10000, mkRat 1 10⟩ ∧
    assign_tier ⟨32, 128, mkRat 1 10000, mkRat 1 10⟩ =
        tierOfClaim ⟨32, 128, mkRat 1 10000, mkRat 1 10⟩ :=
  ⟨assign_tier_policy.1 _ _ rfl, assign_tier_policy.2 _⟩

/-- C9: the derived job name is a pure function of the hyperparameter
values (equal configs give identical names), and over the campaign's 21
distinct configured tuples no two names collide. -/
theorem job_names_distinct :
    (∀ c1 c2 : JobConfig, c1 = c2 → generate_job_name c1 = generate_job_name c2) ∧
    EXPERIMENT_CONFIGS.length = 21 ∧
    EXPERIMENT_CONFIGS.Nodup ∧
    (EXPERIMENT_CONFIGS.map generate_job_name).Nodup :=
  ⟨fun _ _ h => by rw [h], rfl, by decide, by decide⟩

/-- Witness for C9: naming stability discharged at the first config. -/
theorem job_names_distinct_witness :
    cfg0 = cfg0 ∧ generate_job_name cfg0 = generate_job_name cfg0 :=
  ⟨rfl, job_names_distinct.1 cfg0 cfg0 rfl⟩

/-- C3 counterexample: a well-formed JSON response that lacks the
carbonIntensity field makes get_carbon_intensity raise KeyError to its
caller instead of returning the None failure marker. -/
theorem get_carbon_intensity_keyerror_cex :
    get_carbon_intensity (HttpEnv.ok [("error", JsonVal.str "zone not found")]) =
        .error (.keyError "carbonIntensity") ∧
    ∀ v : Option JsonVal,
      get_carbon_intensity (HttpEnv.ok [("error", JsonVal.str "zone not found")]) ≠ .ok v :=
  ⟨rfl, fun _ h => Except.noConfusion h⟩

/-- C3 amended: whenever the HTTP library raises (network, auth failure
via raise_for_status, undecodable body), the fetch returns the None
failure marker; a parsed body with the carbonIntensity field returns that
field's value unchanged; but a parsed body lacking the field propagates a
KeyError to the caller. -/
theorem get_carbon_intensity_spec (env : HttpEnv) :
    (∀ m, env = .raisesRequestException m → get_carbon_intensity env = .ok none) ∧
    (∀ fields v, env = .ok fields → fields.lookup "carbonIntensity" = some v →
      get_carbon_intensity env = .ok (some v)) ∧
    (∀ fields, env = .ok fields → fields.lookup "carbonIntensity" = none →
      get_carbon_intensity env = .error (.keyError "carbonIntensity")) := by
  refine ⟨?_, ?_, ?_⟩
  · rintro m rfl
    rfl
  · rintro fields v rfl hv
    simp [get_carbon_intensity, fetchBody, hv]
  · rintro fields rfl hv
    simp [get_carbon_intensity, fetchBody, hv]

/-- Witness for C3: a transport error is swallowed into the None marker. -/
theorem get_carbon_intensity_spec_witness :
    HttpEnv.raisesRequestException "connection refused" =
        HttpEnv.raisesRequestException "connection refused" ∧
    get_carbon_intensity (HttpEnv.raisesRequestException "connection refused") = .ok none :=
  ⟨rfl, (get_carbon_intensity_spec _).1 "connection refused" rfl⟩

/-- C4 counterexample: a nonzero exit with empty captured stderr is
classified failed but carries the fixed string "Unknown error" as its
error excerpt, not the last 1000 characters of the (empty) stderr. -/
theorem submit_job_ssh_empty_stderr_cex :
    (submit_job_ssh ⟨"quebec", "CA-QC", "100.65.196.126"⟩ cfg0 [] 0 "t0"
        (.runs 10 1 "")).status = "failed" ∧
    (submit_job_ssh ⟨"quebec", "CA-QC", "100.65.196.126"⟩ cfg0 [] 0 "t0"
        (.runs 10 1 "")).error = some "Unknown error" ∧
    (submit_job_ssh ⟨"quebec", "CA-QC", "100.65.196.126"⟩ cfg0 [] 0 "t0"
        (.runs 10 1 "")).error ≠ some (lastChars 1000 "") := by
  decide

/-- C4 amended: blocking dispatch classifies a zero exit before the
ceiling as completed, a nonzero exit before the ceiling as failed with
the last 1000 characters of stderr as excerpt when stderr is nonempty and
the fixed string "Unknown error" when it is empty, any run reaching the
4-hour ceiling — including exactly at the ceiling — as timeout, and any
other exception as error; in every case a record is returned. -/
theorem submit_job_ssh_spec (reg : RegionCfg) (config : JobConfig) (intens : Snapshot)
    (idx : Nat) (ts : String) (proc : ProcBehavior) :
    (∀ e rcode stderr, proc = .runs e rcode stderr → e < 14400 → rcode = 0 →
      (submit_job_ssh reg config intens idx ts proc).status = "completed" ∧
      (submit_job_ssh reg config intens idx ts proc).elapsed_seconds = some e) ∧
    (∀ e rcode stderr, proc = .runs e rcode stderr → e < 14400 → rcode ≠ 0 →
      (submit_job_ssh reg config intens idx ts proc).status = "failed" ∧
      (submit_job_ssh reg config intens idx ts proc).error =
        some (if stderr = "" then "Unknown error" else lastChars 1000 stderr) ∧
      (submit_job_ssh reg config intens idx ts proc).elapsed_seconds = some e) ∧
    (∀ e rcode stderr, proc = .runs e rcode stderr → 14400 ≤ e →
      (submit_job_ssh reg config intens idx ts proc).status = "timeout") ∧
    (∀ m, proc = .fails m →
      (submit_job_ssh reg config intens idx ts proc).status = "error" ∧
      (submit_job_ssh reg config intens idx ts proc).error = some m) := by
  refine ⟨?_, ?_, ?_, ?_⟩
  · rintro e rcode stderr rfl he h0
    simp [submit_job_ssh, subprocess_run, dispatchBase, not_le.mpr he, h0]
  · rintro e rcode stderr rfl he h0
    simp [submit_job_ssh, subprocess_run, dispatchBase, not_le.mpr he, h0]
  · rintro e rcode stderr rfl he
    simp [submit_job_ssh, subprocess_run, dispatchBase, he]
  · rintro m rfl
    simp [submit_job_ssh, subprocess_run, dispatchBase]

/-- Witness for C4: a run reaching exactly the 4-hour ceiling is timeout. -/
theorem submit_job_ssh_spec_witness :
    ProcBehavior.runs 14400 1 "late" = ProcBehavior.runs 14400 1 "late" ∧
    (14400 : ℚ) ≤ 14400 ∧
    (submit_job_ssh ⟨"quebec", "CA-QC", "100.65.196.126"⟩ cfg0 [] 0 "t0"
        (.runs 14400 1 "late")).status = "timeout" :=
  ⟨rfl, le_refl _,
    (submit_job_ssh_spec _ _ _ _ _ _).2.2.1 14400 1 "late" rfl (le_refl _)⟩

/-- C10: in non-blocking dispatch the record is submit_failed (with the
captured stderr) exactly when the handshake completes with nonzero exit
before the 60-second ceiling; a handshake reaching the ceiling or raising
gives error with the exception text; a zero-exit handshake keeps
submitted_async; a record is returned in every case. -/
theorem submit_job_async_spec (reg : RegionCfg) (config : JobConfig) (intens : Snapshot)
    (idx : Nat) (ts : String) (proc : ProcBehavior) :
    (∀ e rcode stderr, proc = .runs e rcode stderr → e < 60 → rcode = 0 →
      (submit_job_async reg config intens idx ts proc).status = "submitted_async") ∧
    (∀ e rcode stderr, proc = .runs e rcode stderr → e < 60 → rcode ≠ 0 →
      (submit_job_async reg config intens idx ts proc).status = "submit_failed" ∧
      (submit_job_async reg config intens idx ts proc).error = some stderr) ∧
    (∀ e rcode stderr, proc = .runs e rcode stderr → 60 ≤ e →
      (submit_job_async reg config intens idx ts proc).status = "error" ∧
      (submit_job_async reg config intens idx ts proc).error = some (timeoutMsg 60)) ∧
    (∀ m, proc = .fails m →
      (submit_job_async reg config intens idx ts proc).status = "error" ∧
      (submit_job_async reg config intens idx ts proc).error = some m) ∧
    ((submit_job_async reg config intens idx ts proc).status = "submit_failed" →
      ∃ e rcode stderr, proc = .runs e rcode stderr ∧ e < 60 ∧ rcode ≠ 0) := by
  refine ⟨?_, ?_, ?_, ?_, ?_⟩
  · rintro e rcode stderr rfl he h0
    simp [submit_job_async, subprocess_run, dispatchBase, not_le.mpr he, h0]
  · rintro e rcode stderr rfl he h0
    simp [submit_job_async, subprocess_run, dispatchBase, not_le.mpr he, h0]
  · rintro e rcode stderr rfl he
    simp [submit_job_async, subprocess_run, dispatchBase, he]
  · rintro m rfl
    simp [submit_job_async, subprocess_run, dispatchBase]
  · intro hs
    rcases proc with ⟨e, rcode, stderr⟩ | m
    · by_cases he : (60 : ℚ) ≤ e
      · simp [submit_job_async, subprocess_run, dispatchBase, he] at hs
      · by_cases h0 : rcode = 0
        · simp [submit_job_async, subprocess_run, dispatchBase, he, h0] at hs
        · exact ⟨e, rcode, stderr, rfl, not_le.mp he, h0⟩
    · simp [submit_job_async, subprocess_run, dispatchBase] at hs

/-- Witness for C10: a failed handshake (unreachable host, exit 255). -/
theorem submit_job_async_spec_witness :
    ProcBehavior.runs 1 255 "ssh: connect to host: no route" =
        ProcBehavior.runs 1 255 "ssh: connect to host: no route" ∧
    (1 : ℚ) < 60 ∧ (255 : Int) ≠ 0 ∧
    (submit_job_async ⟨"quebec", "CA-QC", "100.65.196.126"⟩ cfg0 [] 0 "t0"
        (.runs 1 255 "ssh: connect to host: no route")).status = "submit_failed" ∧
    (submit_job_async ⟨"quebec", "CA-QC", "100.65.196.126"⟩ cfg0 [] 0 "t0"
        (.runs 1 255 "ssh: connect to host: no route")).error =
      some "ssh: connect to host: no route" :=
  ⟨rfl, by norm_num, by norm_num,
    ((submit_job_async_spec _ _ _ _ _ _).2.1 1 255 "ssh: connect to host: no route"
      rfl (by norm_num) (by norm_num)).1,
    ((submit_job_async_spec _ _ _ _ _ _).2.1 1 255 "ssh: connect to host: no route"
      rfl (by norm_num) (by norm_num)).2⟩

/-- C6 counterexample: a blocking-mode timeout record and a non-blocking
submitted record both lack the elapsed-duration field. -/
theorem dispatch_elapsed_cex :
    (submit_job_ssh ⟨"quebec", "CA-QC", "100.65.196.126"⟩ cfg0 [] 0 "t0"
        (.runs 14400 0 "")).status = "timeout" ∧
    (submit_job_ssh ⟨"quebec", "CA-QC", "100.65.196.126"⟩ cfg0 [] 0 "t0"
        (.runs 14400 0 "")).elapsed_seconds = none ∧
    (submit_job_async ⟨"quebec", "CA-QC", "100.65.196.126"⟩ cfg0 [] 0 "t0"
        (.runs 1 0 "")).status = "submitted_async" ∧
    (submit_job_async ⟨"quebec", "CA-QC", "100.65.196.126"⟩ cfg0 [] 0 "t0"
        (.runs 1 0 "")).elapsed_seconds = none := by
  decide

/-- C6 amended: every dispatcher record carries the timestamp, job index,
config, selected region, full intensity snapshot and a status, but the
elapsed-duration field is present exactly in blocking-mode records whose
remote command finished within the ceiling (statuses completed and
failed); blocking timeout and error records and all non-blocking records
lack it. -/
theorem dispatch_record_shape (reg : RegionCfg) (config : JobConfig) (intens : Snapshot)
    (idx : Nat) (ts : String) (proc : ProcBehavior) :
    ((submit_job_ssh reg config intens idx ts proc).timestamp = ts ∧
     (submit_job_ssh reg config intens idx ts proc).job_index = idx ∧
     (submit_job_ssh reg config intens idx ts proc).config = config ∧
     (submit_job_ssh reg config intens idx ts proc).selected_region = some reg.name ∧
     (submit_job_ssh reg config intens idx ts proc).intensities = some intens) ∧
    ((submit_job_ssh reg config intens idx ts proc).elapsed_seconds.isSome = true ↔
      ((submit_job_ssh reg config intens idx ts proc).status = "completed" ∨
       (submit_job_ssh reg config intens idx ts proc).status = "failed")) ∧
    ((submit_job_async reg config intens idx ts proc).timestamp = ts ∧
     (submit_job_async reg config intens idx ts proc).job_index = idx ∧
     (submit_job_async reg config intens idx ts proc).config = config ∧
     (submit_job_async reg config intens idx ts proc).selected_region = some reg.name ∧
     (submit_job_async reg config intens idx ts proc).intensities = some intens) ∧
    (submit_job_async reg config intens idx ts proc).elapsed_seconds = none := by
  rcases proc with ⟨e, rcode, stderr⟩ | m
  · by_cases he4 : (14400 : ℚ) ≤ e <;> by_cases he6 : (60 : ℚ) ≤ e <;>
      by_cases h0 : rcode = 0 <;>
      simp [submit_job_ssh, submit_job_async, subprocess_run, dispatchBase, he4, he6, h0]
  · simp [submit_job_ssh, submit_job_async, subprocess_run, dispatchBase]

/-- Python min keeps the first entry achieving the minimal value: the
fold splits the scanned list into a strictly-greater front part, the
winner, and a tail, with the winner minimal overall. -/
theorem pyMin_first_min (l : List (String × ℚ)) (b : String × ℚ) :
    ∃ m l1 l2, l.foldl pyMinStep (some b) = some m ∧
      b :: l = l1 ++ m :: l2 ∧ (∀ x ∈ l1, m.2 < x.2) ∧ (∀ x ∈ b :: l, m.2 ≤ x.2) := by
  induction l generalizing b with
  | nil =>
    exact ⟨b, [], [], rfl, rfl, by simp, by simp⟩
  | cons x xs ih =>
    by_cases hx : x.2 < b.2
    · obtain ⟨m, l1, l2, hfold, hdec, hlt, hle⟩ := ih x
      refine ⟨m, b :: l1, l2, ?_, ?_, ?_, ?_⟩
      · simpa [pyMinStep, hx] using hfold
      · rw [List.cons_append, ← hdec]
      · intro y hy
        rcases List.mem_cons.mp hy with rfl | hy1
        · exact lt_of_le_of_lt (hle x (by simp)) hx
        · exact hlt y hy1
      · intro y hy
        rcases List.mem_cons.mp hy with rfl | hy2
        · exact le_of_lt (lt_of_le_of_lt (hle x (by simp)) hx)
        · exact hle y hy2
    · obtain ⟨m, l1, l2, hfold, hdec, hlt, hle⟩ := ih b
      match l1, hdec, hlt with
      | [], hdec, hlt =>
        rw [List.nil_append] at hdec
        obtain ⟨hbm, hxs⟩ := List.cons.inj hdec
        subst hxs
        subst hbm
        refine ⟨b, [], x :: xs, ?_, rfl, by simp, ?_⟩
        · simpa [pyMinStep, hx] using hfold
        · intro y hy
          rcases List.mem_cons.mp hy with rfl | hy1
          · exact le_refl _
          rcases List.mem_cons.mp hy1 with rfl | hy2
          · exact not_lt.mp hx
          · exact hle y (List.mem_cons_of_mem b hy2)
      | a :: l1', hdec, hlt =>
        rw [List.cons_append] at hdec
        obtain ⟨hab, hxs⟩ := List.cons.inj hdec
        subst hab
        have hmb : m.2 < b.2 := hlt b (by simp)
        refine ⟨m, b :: x :: l1', l2, ?_, ?_, ?_, ?_⟩
        · simpa [pyMinStep, hx] using hfold
        · rw [List.cons_append, List.cons_append, ← hxs]
        · intro y hy
          rcases List.mem_cons.mp hy with rfl | hy1
          · exact hmb
          rcases List.mem_cons.mp hy1 with rfl | hy2
          · exact lt_of_lt_of_le hmb (not_lt.mp hx)
          · exact hlt y (List.mem_cons_of_mem b hy2)
        · intro y hy
          rcases List.mem_cons.mp hy with rfl | hy1
          · exact hle y (by simp)
          rcases List.mem_cons.mp hy1 with rfl | hy2
          · exact le_of_lt (lt_of_lt_of_le hmb (not_lt.mp hx))
          · exact hle y (List.mem_cons_of_mem b hy2)

/-- On an all-failure snapshot, selection raises the RuntimeError. -/
theorem pick_fails_of_no_success (regions : List RegionCfg) (telem : String → Option ℚ)
    (h : successes (get_all_intensities regions telem) = []) :
    pick_cleanest_region regions telem =
      .error "Could not get carbon intensity for any region!" := by
  simp [pick_cleanest_region, h, pyMin]

/-- C1: for a snapshot with at least one successful reading, selection
returns the first region (in declaration order) whose reading is minimal,
together with the full snapshot including failures; for an all-failure
snapshot it fails with the RuntimeError (NoRegionAvailable). -/
theorem pick_cleanest_region_spec (regions : List RegionCfg) (telem : String → Option ℚ) :
    (successes (get_all_intensities regions telem) = [] →
      pick_cleanest_region regions telem =
        .error "Could not get carbon intensity for any region!") ∧
    (successes (get_all_intensities regions telem) ≠ [] →
      ∃ m l1 l2,
        pick_cleanest_region regions telem =
          .ok (m.1, get_all_intensities regions telem) ∧
        successes (get_all_intensities regions telem) = l1 ++ m :: l2 ∧
        (∀ x ∈ l1, m.2 < x.2) ∧
        (∀ x ∈ successes (get_all_intensities regions telem), m.2 ≤ x.2)) := by
  constructor
  · exact pick_fails_of_no_success regions telem
  · intro h
    rcases hs : successes (get_all_intensities regions telem) with _ | ⟨b, l⟩
    · exact absurd hs h
    · obtain ⟨m, l1, l2, hfold, hdec, hlt, hle⟩ := pyMin_first_min l b
      have hpm : pyMin (successes (get_all_intensities regions telem)) = some m := by
        rw [hs]
        simpa [pyMin, pyMinStep] using hfold
      refine ⟨m, l1, l2, ?_, ?_, hlt, ?_⟩
      · simp [pick_cleanest_region, hpm]
      · exact hdec
      · exact hle

/-- Witness for C1: Scenario A (quebec 40, ohio 350, nordic 25). -/
theorem pick_cleanest_region_spec_witness :
    successes (get_all_intensities REGIONS scenarioTelem) ≠ [] ∧
    (∃ m l1 l2,
      pick_cleanest_region REGIONS scenarioTelem =
        .ok (m.1, get_all_intensities REGIONS scenarioTelem) ∧
      successes (get_all_intensities REGIONS scenarioTelem) = l1 ++ m :: l2 ∧
      (∀ x ∈ l1, m.2 < x.2) ∧
      (∀ x ∈ successes (get_all_intensities REGIONS scenarioTelem), m.2 ≤ x.2)) :=
  ⟨by decide, (pick_cleanest_region_spec REGIONS scenarioTelem).2 (by decide)⟩

/-- The blocking-dispatch record always carries the tick's job index. -/
theorem submit_job_ssh_job_index (reg : RegionCfg) (config : JobConfig) (intens : Snapshot)
    (idx : Nat) (ts : String) (proc : ProcBehavior) :
    (submit_job_ssh reg config intens idx ts proc).job_index = idx := by
  rcases proc with ⟨e, rcode, stderr⟩ | m
  · by_cases he : (14400 : ℚ) ≤ e <;> by_cases h0 : rcode = 0 <;>
      simp [submit_job_ssh, subprocess_run, dispatchBase, he, h0]
  · simp [submit_job_ssh, subprocess_run, dispatchBase]

/-- The non-blocking-dispatch record always carries the tick's job index. -/
theorem submit_job_async_job_index (reg : RegionCfg) (config : JobConfig) (intens : Snapshot)
    (idx : Nat) (ts : String) (proc : ProcBehavior) :
    (submit_job_async reg config intens idx ts proc).job_index = idx := by
  rcases proc with ⟨e, rcode, stderr⟩ | m
  · by_cases he : (60 : ℚ) ≤ e <;> by_cases h0 : rcode = 0 <;>
      simp [submit_job_async, subprocess_run, dispatchBase, he, h0]
  · simp [submit_job_async, subprocess_run, dispatchBase]

/-- A tick whose selection fails produces exactly the skip record
followed by the cadence wait (absent for the last job). -/
theorem tickEvents_skip (regions : List RegionCfg) (mode : Bool) (n i : Nat)
    (config : JobConfig) (env : TickEnv)
    (hfail : successes (get_all_intensities regions env.telem) = []) :
    tickEvents regions mode n i config env =
      .logged (skipEntry env.ts i config) ::
        (if i < n - 1 then [.waited SUBMISSION_INTERVAL_HOURS] else []) := by
  simp [tickEvents, pick_fails_of_no_success regions env.telem hfail]

/-- Every record logged by a tick carries that tick's job index, and on a
tick whose selection fails the only record logged is the skip record. -/
theorem tickEvents_logged_mem (regions : List RegionCfg) (mode : Bool) (n i : Nat)
    (config : JobConfig) (env : TickEnv) (en : LogEntry)
    (hmem : Event.logged en ∈ tickEvents regions mode n i config env) :
    en.job_index = i ∧
    (successes (get_all_intensities regions env.telem) = [] →
      en = skipEntry env.ts i config) := by
  rcases hpick : pick_cleanest_region regions env.telem with msg | ⟨region, intens⟩
  · rw [tickEvents, hpick] at hmem
    rcases List.mem_cons.mp hmem with h | h
    · cases h
      exact ⟨rfl, fun _ => rfl⟩
    · exfalso
      by_cases hw : i < n - 1 <;> simp [hw] at h
  · rw [tickEvents, hpick] at hmem
    rcases List.mem_cons.mp hmem with h | h
    · constructor
      · cases h
        by_cases hm : mode <;>
          simp [hm, submit_job_ssh_job_index, submit_job_async_job_index]
      · intro hfail
        rw [pick_fails_of_no_success regions env.telem hfail] at hpick
        exact absurd hpick (by simp)
    · exfalso
      by_cases hw : i < n - 1 <;> simp [hw] at h

/-- The loop's trace contains each tick's block as one contiguous segment. -/
theorem runLoop_segment (regions : List RegionCfg) (mode : Bool) (n : Nat)
    (envs : Nat → TickEnv) :
    ∀ (cs : List JobConfig) (i0 k : Nat) (hk : k < cs.length),
      ∃ pre post,
        runLoop regions mode n i0 cs envs =
          pre ++ tickEvents regions mode n (i0 + k) (cs.get ⟨k, hk⟩) (envs (i0 + k)) ++ post := by
  intro cs
  induction cs with
  | nil =>
    intro i0 k hk
    exact absurd hk (by simp)
  | cons c rest ih =>
    intro i0 k hk
    match k with
    | 0 =>
      exact ⟨[], runLoop regions mode n (i0 + 1) rest envs, by simp [runLoop]⟩
    | k' + 1 =>
      obtain ⟨pre, post, h⟩ := ih (i0 + 1) k' (Nat.lt_of_succ_lt_succ hk)
      refine ⟨tickEvents regions mode n i0 c (envs i0) ++ pre, post, ?_⟩
      have hidx : i0 + (k' + 1) = i0 + 1 + k' := by omega
      rw [runLoop, hidx]
      simp [h, List.append_assoc]

/-- Every record logged by the loop comes from the tick of its own job
index. -/
theorem runLoop_logged (regions : List RegionCfg) (mode : Bool) (n : Nat)
    (envs : Nat → TickEnv) :
    ∀ (cs : List JobConfig) (i0 : Nat) (en : LogEntry),
      Event.logged en ∈ runLoop regions mode n i0 cs envs →
      ∃ k, ∃ hk : k < cs.length, en.job_index = i0 + k ∧
        Event.logged en ∈
          tickEvents regions mode n (i0 + k) (cs.get ⟨k, hk⟩) (envs (i0 + k)) := by
  intro cs
  induction cs with
  | nil =>
    intro i0 en h
    simp [runLoop] at h
  | cons c rest ih =>
    intro i0 en h
    rw [runLoop] at h
    rcases List.mem_append.mp h with h1 | h2
    · refine ⟨0, by simp, ?_, ?_⟩
      · simpa using (tickEvents_logged_mem regions mode n i0 c (envs i0) en h1).1
      · simpa using h1
    · obtain ⟨k, hk, hidx, hmem⟩ := ih (i0 + 1) en h2
      refine ⟨k + 1, Nat.succ_lt_succ hk, by omega, ?_⟩
      have hx : i0 + (k + 1) = i0 + 1 + k := by omega
      rw [hx]
      simpa using hmem

/-- When the run was not aborted at the startup prompt, its trace is the
full loop trace. -/
theorem run_experiment_events (regions : List RegionCfg) (answer : String) (mode : Bool)
    (configs : List JobConfig) (envs : Nat → TickEnv)
    (hok : (run_experiment regions answer mode configs envs).aborted = false) :
    (run_experiment regions answer mode configs envs).events =
      runLoop regions mode configs.length 0 configs envs := by
  unfold run_experiment at hok ⊢
  split_ifs at hok ⊢ <;> rfl

/-- With an empty region table every tick's selection fails, so every
logged record is a skip record. -/
theorem runLoop_all_skip (mode : Bool) (n : Nat) (envs : Nat → TickEnv)
    (cs : List JobConfig) (i0 : Nat) (en : LogEntry)
    (h : Event.logged en ∈ runLoop [] mode n i0 cs envs) :
    en.status = "skipped_api_error" := by
  obtain ⟨k, hk, hidx, hmem⟩ := runLoop_logged [] mode n envs cs i0 en h
  have := (tickEvents_logged_mem [] mode n (i0 + k) _ (envs (i0 + k)) en hmem).2 rfl
  rw [this]
  rfl

/-- C2 counterexample: on a tick where all telemetry fails the appended
record's status is the string "skipped_api_error", not the
"skipped_no_telemetry" the data model enumerates. -/
theorem skip_status_string_cex :
    (run_experiment quebecOnly "y" false [cfg0] (fun _ => noTelem)).events =
      [Event.logged (skipEntry "t0" 0 cfg0)] ∧
    (skipEntry "t0" 0 cfg0).status = "skipped_api_error" ∧
    (skipEntry "t0" 0 cfg0).status ≠ "skipped_no_telemetry" := by
  decide

/-- C2 amended: on every tick whose telemetry fails for all configured
regions, the scheduler appends a record with status "skipped_api_error"
capturing the tick's timestamp, job index and config, with no region,
snapshot or elapsed fields. -/
theorem skip_record_on_total_failure (regions : List RegionCfg) (answer : String)
    (mode : Bool) (configs : List JobConfig) (envs : Nat → TickEnv) (i : Nat)
    (hi : i < configs.length)
    (hok : (run_experiment regions answer mode configs envs).aborted = false)
    (hfail : successes (get_all_intensities regions (envs i).telem) = []) :
    Event.logged (skipEntry (envs i).ts i (configs.get ⟨i, hi⟩)) ∈
      (run_experiment regions answer mode configs envs).events ∧
    (skipEntry (envs i).ts i (configs.get ⟨i, hi⟩)).status = "skipped_api_error" ∧
    (skipEntry (envs i).ts i (configs.get ⟨i, hi⟩)).selected_region = none ∧
    (skipEntry (envs i).ts i (configs.get ⟨i, hi⟩)).intensities = none ∧
    (skipEntry (envs i).ts i (configs.get ⟨i, hi⟩)).elapsed_seconds = none := by
  refine ⟨?_, rfl, rfl, rfl, rfl⟩
  rw [run_experiment_events regions answer mode configs envs hok]
  obtain ⟨pre, post, hseg⟩ := runLoop_segment regions mode configs.length envs configs 0 i hi
  simp only [Nat.zero_add] at hseg
  rw [hseg, tickEvents_skip regions mode configs.length i _ (envs i) hfail]
  simp

/-- Witness for C2: a one-job campaign over the quebec-only table with
failing telemetry. -/
theorem skip_record_on_total_failure_witness :
    0 < ([cfg0] : List JobConfig).length ∧
    (run_experiment quebecOnly "y" false [cfg0] (fun _ => noTelem)).aborted = false ∧
    successes (get_all_intensities quebecOnly noTelem.telem) = [] ∧
    (Event.logged (skipEntry noTelem.ts 0 cfg0) ∈
      (run_experiment quebecOnly "y" false [cfg0] (fun _ => noTelem)).events ∧
     (skipEntry noTelem.ts 0 cfg0).status = "skipped_api_error" ∧
     (skipEntry noTelem.ts 0 cfg0).selected_region = none ∧
     (skipEntry noTelem.ts 0 cfg0).intensities = none ∧
     (skipEntry noTelem.ts 0 cfg0).elapsed_seconds = none) :=
  ⟨by decide, by decide, by decide,
    skip_record_on_total_failure quebecOnly "y" false [cfg0] (fun _ => noTelem) 0
      (by decide) (by decide) (by decide)⟩

/-- C7: a tick whose selection fails logs its skip record and then waits
exactly one cadence interval unless it was the last job, and the skipped
job's index never receives any other record in the whole campaign — in
particular it is never dispatched in a later tick. -/
theorem skipped_tick_no_retry (regions : List RegionCfg) (answer : String) (mode : Bool)
    (configs : List JobConfig) (envs : Nat → TickEnv) (i : Nat)
    (hi : i < configs.length)
    (hok : (run_experiment regions answer mode configs envs).aborted = false)
    (hfail : successes (get_all_intensities regions (envs i).telem) = []) :
    (∃ pre post,
      (run_experiment regions answer mode configs envs).events =
        pre ++ (Event.logged (skipEntry (envs i).ts i (configs.get ⟨i, hi⟩)) ::
          (if i < configs.length - 1 then [Event.waited SUBMISSION_INTERVAL_HOURS]
           else [])) ++ post) ∧
    (∀ en : LogEntry,
      Event.logged en ∈ (run_experiment regions answer mode configs envs).events →
      en.job_index = i →
      en = skipEntry (envs i).ts i (configs.get ⟨i, hi⟩)) := by
  constructor
  · rw [run_experiment_events regions answer mode configs envs hok]
    obtain ⟨pre, post, hseg⟩ := runLoop_segment regions mode configs.length envs configs 0 i hi
    simp only [Nat.zero_add] at hseg
    rw [hseg, tickEvents_skip regions mode configs.length i _ (envs i) hfail]
    exact ⟨pre, post, rfl⟩
  · intro en hmem hidx
    rw [run_experiment_events regions answer mode configs envs hok] at hmem
    obtain ⟨k, hk, hjidx, htick⟩ :=
      runLoop_logged regions mode configs.length envs configs 0 en hmem
    have hki : k = i := by omega
    subst hki
    simp only [Nat.zero_add] at htick
    have := (tickEvents_logged_mem regions mode configs.length k _ (envs k) en htick).2 hfail
    exact this

/-- Witness for C7: a two-job campaign whose first tick has no telemetry,
showing the skip record, the single cadence wait, and no later record for
job 0. -/
theorem skipped_tick_no_retry_witness :
    0 < ([cfg0, cfg1] : List JobConfig).length ∧
    (run_experiment quebecOnly "y" false [cfg0, cfg1] (fun _ => noTelem)).aborted = false ∧
    successes (get_all_intensities quebecOnly noTelem.telem) = [] ∧
    ((∃ pre post,
      (run_experiment quebecOnly "y" false [cfg0, cfg1] (fun _ => noTelem)).events =
        pre ++ (Event.logged (skipEntry noTelem.ts 0 cfg0) ::
          (if 0 < ([cfg0, cfg1] : List JobConfig).length - 1
           then [Event.waited SUBMISSION_INTERVAL_HOURS] else [])) ++ post) ∧
     (∀ en : LogEntry,
       Event.logged en ∈
         (run_experiment quebecOnly "y" false [cfg0, cfg1] (fun _ => noTelem)).events →
       en.job_index = 0 → en = skipEntry noTelem.ts 0 cfg0)) :=
  ⟨by decide, by decide, by decide,
    skipped_tick_no_retry quebecOnly "y" false [cfg0, cfg1] (fun _ => noTelem) 0
      (by decide) (by decide) (by decide)⟩

/-- C5 counterexample: with the shipped REGIONS table (ohio still a
placeholder) and a "y" answer the loop runs anyway — the placeholder
configuration is handled by the interactive prompt, not rejected — and
with an empty region table nothing fails fast: the loop runs and handles
the failure inside each tick as a skip record. -/
theorem startup_gate_cex :
    (run_experiment REGIONS "y" false [cfg0] (fun _ => noTelem)).prompted = true ∧
    (run_experiment REGIONS "y" false [cfg0] (fun _ => noTelem)).aborted = false ∧
    (run_experiment REGIONS "y" false [cfg0] (fun _ => noTelem)).events ≠ [] ∧
    (run_experiment [] "n" false [cfg0] (fun _ => noTelem)).prompted = false ∧
    (run_experiment [] "n" false [cfg0] (fun _ => noTelem)).aborted = false ∧
    (run_experiment [] "n" false [cfg0] (fun _ => noTelem)).events =
      [Event.logged (skipEntry "t0" 0 cfg0)] := by
  decide

/-- C5 amended: the placeholder-address check is the only startup gate —
the interactive prompt is consulted exactly when some region's address
contains "100.x.x.x", the run returns before the first tick exactly when
that prompt is answered with anything but "y", and an empty region table
is not rejected at startup: the loop runs and each tick's selection
failure is logged inside the loop as a skip record. -/
theorem startup_gate (regions : List RegionCfg) (answer : String) (mode : Bool)
    (configs : List JobConfig) (envs : Nat → TickEnv) :
    ((run_experiment regions answer mode configs envs).prompted = true ↔
      (regions.filter (fun r => containsSubstr r.ip "100.x.x.x")).isEmpty = false) ∧
    ((run_experiment regions answer mode configs envs).aborted = true ↔
      ((regions.filter (fun r => containsSubstr r.ip "100.x.x.x")).isEmpty = false ∧
        pyLower answer ≠ "y")) ∧
    ((run_experiment regions answer mode configs envs).aborted = true →
      (run_experiment regions answer mode configs envs).events = []) ∧
    ((run_experiment regions answer mode configs envs).aborted = false →
      (run_experiment regions answer mode configs envs).events =
        runLoop regions mode configs.length 0 configs envs) ∧
    (regions = [] →
      (run_experiment regions answer mode configs envs).aborted = false ∧
      ∀ en : LogEntry,
        Event.logged en ∈ (run_experiment regions answer mode configs envs).events →
          en.status = "skipped_api_error") := by
  by_cases h1 : (regions.filter (fun r => containsSubstr r.ip "100.x.x.x")).isEmpty
  · have hre : run_experiment regions answer mode configs envs =
        ⟨false, false, runLoop regions mode configs.length 0 configs envs⟩ := by
      unfold run_experiment
      rw [if_pos h1]
    rw [hre]
    refine ⟨by simp [h1], by simp [h1], by simp, fun _ => rfl, ?_⟩
    rintro rfl
    exact ⟨rfl, fun en hmem => runLoop_all_skip mode configs.length envs configs 0 en hmem⟩
  · by_cases h2 : pyLower answer = "y"
    · have hre : run_experiment regions answer mode configs envs =
          ⟨true, false, runLoop regions mode configs.length 0 configs envs⟩ := by
        unfold run_experiment
        rw [if_neg h1, if_pos h2]
      rw [hre]
      refine ⟨by simp [Bool.eq_false_iff, h1], by simp [h2], by simp, fun _ => rfl, ?_⟩
      rintro rfl
      simp at h1
    · have hre : run_experiment regions answer mode configs envs =
          ⟨true, true, []⟩ := by
        unfold run_experiment
        rw [if_neg h1, if_neg h2]
      rw [hre]
      refine ⟨by simp [Bool.eq_false_iff, h1], ?_, fun _ => rfl, ?_, ?_⟩
      · simp [Bool.eq_false_iff, h1, h2]
      · intro h
        simp at h
      · rintro rfl
        simp at h1

/-- Witness for C5: the empty-region-table branch at a concrete input. -/
theorem startup_gate_witness :
    (([] : List RegionCfg) = []) ∧
    ((run_experiment [] "y" false [cfg0] (fun _ => noTelem)).aborted = false ∧
      ∀ en : LogEntry,
        Event.logged en ∈ (run_experiment [] "y" false [cfg0] (fun _ => noTelem)).events →
          en.status = "skipped_api_error") :=
  ⟨rfl, (startup_gate [] "y" false [cfg0] (fun _ => noTelem)).2.2.2.2 rfl⟩

end SpatialRouter
